import Mathlib

/-!
Verification development for the chunk/block generation-and-linking engine of
the ArPuGuh repository (`app/entities/chunk.py`).

The Python source is shallowly embedded below.  Pure attribute data of blocks
and chunks is modelled by Lean structures; the relational persistence layer is
modelled by an explicit list of chunk records threaded through the functions;
Python exceptions (IndexError, ValueError from numpy reshape, NameError) are
modelled with `Except`.  Rendering concerns (sprites, background images,
batches) and entity spawning (walls, mobs) touched by `Chunk.load` do not
affect any of the verified attributes (coordinate, name, block grid, database
contents) and are omitted from the embedding.
-/

/-- The eight compass directions used for block and chunk adjacency. -/
inductive Direction where
  | n | ne | e | se | s | sw | w | nw
deriving DecidableEq, Repr

/-- The opposite compass direction. -/
def oppDir : Direction → Direction
  | .n => .s
  | .ne => .sw
  | .e => .w
  | .se => .nw
  | .s => .n
  | .sw => .ne
  | .w => .e
  | .nw => .se

/-- Python-level errors that the embedded code can raise.
`indexError` models `IndexError` from list/array subscripts, `valueError`
models the `ValueError` numpy's `reshape` raises on a size mismatch, and
`nameError s` models `NameError: name 's' is not defined`.
`noDatabaseModel` — Modelled from the spec: the `NoDatabaseModel` exception
that `app/system/exceptions.py` (absent from src/) declares and `chunk.py`
imports on line 18; the spec calls it the MissingPersistedGridError. -/
inductive PyErr where
  | indexError
  | valueError
  | nameError (missing : String)
  | noDatabaseModel
deriving DecidableEq, Repr

/-- Python list subscript `l[i]` with an `Int` index: a negative index counts
from the end of the list (`l[-1]` is the last element); an index out of range
raises `IndexError`. -/
def pyNth {α : Type} (l : List α) (i : Int) : Except PyErr α :=
  let j : Int := if i < 0 then i + l.length else i
  if j < 0 then .error .indexError
  else
    match l[j.toNat]? with
    | some a => .ok a
    | none => .error .indexError

/-- Two-dimensional Python subscript `g[i][j]`. -/
def pyNth2 {α : Type} (g : List (List α)) (i j : Int) : Except PyErr α := do
  let row ← pyNth g i
  pyNth row j

/-- The configuration surface consumed by the core (config.py is not under
src/; only the four options `chunk.py` reads are modelled). -/
structure Config where
  window_width : Nat
  window_height : Nat
  block_width : Nat
  block_height : Nat
deriving DecidableEq, Repr

/-- `self.n_rows = config.window_height//config.block_height` (Chunk.__init__). -/
def nRows (cfg : Config) : Nat := cfg.window_height / cfg.block_height

/-- `self.n_cols = config.window_width//config.block_width` (Chunk.__init__). -/
def nCols (cfg : Config) : Nat := cfg.window_width / cfg.block_width

/-- The shared (persisted) attributes of a block other than its position:
pixel width and height, color, and the collidable flag. -/
structure BlockAttrs where
  width : Nat
  height : Nat
  color : Nat × Nat × Nat
  collidable : Bool
deriving DecidableEq, Repr

instance : Inhabited BlockAttrs := ⟨⟨0, 0, (0, 0, 0), false⟩⟩

/-- The persisted data of a block: chunk-local tile position `(x, y)` plus the
shared attributes.  Directional links are not part of the persisted data (the
persistence contract saves position/size/color/collidable only); the link
structure is modelled separately below. -/
structure BlockData where
  x : Int
  y : Int
  attrs : BlockAttrs
deriving DecidableEq, Repr

/-- The coordinate step of each direction in chunk-local tile units. -/
def dirStep : Direction → Int × Int
  | .n => (0, 1)
  | .ne => (1, 1)
  | .e => (1, 0)
  | .se => (1, -1)
  | .s => (0, -1)
  | .sw => (-1, -1)
  | .w => (-1, 0)
  | .nw => (-1, 1)

/-- Modelled from the spec: `Block.create_direction` (block.py is not under
src/).  Extrusion derives a brand-new block from an existing one in a given
direction: it copies the shared attributes (size, color, collidability),
shifts the chunk-local tile position one step in that direction, and inherits
no links (spec section 3 and glossary entry "Extrusion").  An unrecognized
direction token raises `DirectionMismatch`; with the `Direction` enumeration
every token is recognized, so that branch cannot arise here. -/
def createDirection (b : BlockData) (d : Direction) : BlockData :=
  { b with x := b.x + (dirStep d).1, y := b.y + (dirStep d).2 }

/-- Modelled from the spec: the `Block` constructor (block.py is not under
src/).  `Block(x, y)` builds a fresh block at the given chunk-local tile
position with the default shared attributes fixed by the tile-size
configuration (spec sections 3 and 6); the concrete default color and
collidable flag are not observable in the verified properties and are chosen
as `(0,0,0)` and `false`. -/
def blockNew (cfg : Config) (x y : Int) : BlockData :=
  ⟨x, y, ⟨cfg.block_width, cfg.block_height, (0, 0, 0), false⟩⟩

/-- Modelled from the spec: a persisted chunk record of the relational
gateway (`app/database` is not under src/).  Per the load/save contract of
spec section 6, a record carries the coordinate, the name, and the full block
list, each block with its own persisted position/size/color/collidable flag. -/
structure ChunkRec where
  x : Int
  y : Int
  name : String
  blocks : List BlockData
deriving DecidableEq, Repr

/-- Modelled from the spec: the session's table of persisted chunks, in
insertion order. -/
abbrev DB := List ChunkRec

/-- `session.query(models.Chunk).filter_by(x=x, y=y).first()`: the first
record matching the coordinate, together with its row index (the row index
stands for the row identity that `chunk.db_obj` holds onto). -/
def dbQueryIdx : DB → Int → Int → Nat → Option (Nat × ChunkRec)
  | [], _, _, _ => none
  | r :: rest, x, y, i =>
    if r.x = x ∧ r.y = y then some (i, r) else dbQueryIdx rest x y (i + 1)

/-- The record-only view of the coordinate query. -/
def dbQuery (db : DB) (x y : Int) : Option ChunkRec :=
  (dbQueryIdx db x y 0).map (·.2)

/-- The in-memory chunk state relevant to the verified claims: coordinate,
display name, the R×C grid of block data, the flat block list, and the
database row the chunk is bound to (`self.db_obj`), if any.  The entity lists
(players, mobs, walls, objects) and the rendering handles of `Chunk.__init__`
do not affect these attributes and are omitted. -/
structure ChunkData where
  x : Int
  y : Int
  name : String
  grid : List (List BlockData)
  blocks : List BlockData
  dbObj : Option Nat
deriving DecidableEq, Repr

/-- The default display name: `f'{self.__class__.__name__}({self.x}, {self.y})'`. -/
def mkName (x y : Int) : String :=
  "Chunk(" ++ toString x ++ ", " ++ toString y ++ ")"

/-- `self.name = name if name else f'...'`: a `None` or empty name falls back
to the default (Python truthiness of the optional string). -/
def nameOrDefault (name : Option String) (x y : Int) : String :=
  match name with
  | some s => if s = "" then mkName x y else s
  | none => mkName x y

/-- `Chunk.__init__`: a freshly constructed chunk with empty grid and block
list and no bound database row. -/
def chunkInit (x y : Int) (name : Option String) : ChunkData :=
  ⟨x, y, nameOrDefault name x y, [], [], none⟩

/-- Ordering key used by `Chunk.load_blocks`:
`sorted(self.blocks, key=lambda block: (block.y, block.x))`. -/
def blockKeyLe (a b : BlockData) : Bool :=
  decide (a.y < b.y ∨ (a.y = b.y ∧ a.x ≤ b.x))

/-- `np.array(l).reshape(rows, cols)` for a list of row-major entries:
`rows` successive rows of `cols` entries each (callers check the length). -/
def chunkRows {α : Type} (cols : Nat) : Nat → List α → List (List α)
  | 0, _ => []
  | r + 1, l => l.take cols :: chunkRows cols r (l.drop cols)

/-- `Chunk.load_blocks`, data level: with no bound database row the method
executes `raise NoDatabaseObject` — but `NoDatabaseObject` is an undefined
name (line 18 imports `NoDatabaseModel`), so Python raises
`NameError: name 'NoDatabaseObject' is not defined`.  Otherwise the block
records are replayed in storage order, sorted by `(y, x)`, and reshaped into
the `n_rows × n_cols` grid (numpy raises `ValueError` on a size mismatch).
Returns the flat list (`self.blocks`, storage order) and the grid.  The
concluding `self.link_blocks()` call only mutates the link structure, which
is modelled separately by `linkBlocksState`. -/
def loadBlocksData (cfg : Config) (dbObj : Option ChunkRec) :
    Except PyErr (List BlockData × List (List BlockData)) :=
  match dbObj with
  | none => .error (.nameError "NoDatabaseObject")
  | some rec =>
    let blocks := rec.blocks
    let sorted := blocks.mergeSort blockKeyLe
    if sorted.length = nRows cfg * nCols cfg then
      .ok (blocks, chunkRows (nCols cfg) (nRows cfg) sorted)
    else
      .error .valueError

/-- `Chunk.load_from_db_obj`: construct a chunk from a persisted record
(name passed through, database row bound, blocks loaded). -/
def hydrateChunk (cfg : Config) (i : Nat) (rec : ChunkRec) :
    Except PyErr ChunkData := do
  let pair ← loadBlocksData cfg (some rec)
  .ok ⟨rec.x, rec.y, nameOrDefault (some rec.name) rec.x rec.y,
       pair.2, pair.1, some i⟩

/-- `Chunk.save`: if the chunk has no bound row a new row is created
(appended to the session); otherwise the bound row is updated in place.  The
row receives the chunk's coordinate, name and current block list (each block
is saved and foreign-keyed to the chunk row). -/
def saveChunk (c : ChunkData) (db : DB) : ChunkData × DB :=
  match c.dbObj with
  | none => ({ c with dbObj := some db.length }, db ++ [⟨c.x, c.y, c.name, c.blocks⟩])
  | some i => (c, db.set i ⟨c.x, c.y, c.name, c.blocks⟩)

/-- `Chunk.load(x, y)` with the default `create=False`, as invoked by
`build_blocks` for the west and south neighbors: load-if-persisted, else
`None`.  The found path hydrates the chunk from its record; it does not
mutate the database. -/
def loadNoCreate (cfg : Config) (x y : Int) (db : DB) :
    Except PyErr (Option ChunkData) :=
  match dbQueryIdx db x y 0 with
  | some (i, rec) => (hydrateChunk cfg i rec).map some
  | none => .ok none

/-- `row[-1]`: the most recently appended block of the row being built
(`rowRev` holds the row in reverse), or `IndexError` on an empty row. -/
def rowLast (rowRev : List BlockData) : Except PyErr BlockData :=
  match rowRev with
  | [] => .error .indexError
  | prev :: _ => .ok prev

/-- The chunk_w subscripts evaluated while back-filling the previous row's
nw/w/sw links at the start of a non-first row (`build_blocks`, OTHER ROWS,
FIRST COLUMN).  These wire cross-chunk links, which do not change any block
data, but the subscripts can raise `IndexError`; note that `r_i-2` is `-1`
when `r_i = 1`, wrapping around to chunk_w's last row. -/
def backfillWestReads (cw : Option ChunkData) (r : Nat) :
    Except PyErr Unit :=
  match cw with
  | some wc => do
    let _ ← pyNth2 wc.grid (r : Int) (-1)
    let _ ← pyNth2 wc.grid ((r : Int) - 1) (-1)
    let _ ← pyNth2 wc.grid ((r : Int) - 2) (-1)
    pure ()
  | none => pure ()

/-- The chunk_w subscript evaluated for `new_block.w = chunk_w.grid[r_i][-1]`
(cross-chunk link; data no-op, but the subscript can raise). -/
def westEdgeRead (cw : Option ChunkData) (r : Nat) : Except PyErr Unit :=
  match cw with
  | some wc => do
    let _ ← pyNth2 wc.grid (r : Int) (-1)
    pure ()
  | none => pure ()

/-- One cell of `Chunk.build_blocks`, data level.  `r`, `c` are the loop
indices, `prevRow` is `self.grid[r_i-1]` (the previously completed row;
unused when `r = 0`), and `rowRev` is the row built so far in reverse, so
that `row[-1]` is its head.  Link assignments only mutate the link
structure, not the block data, but their subscript evaluations (which can
raise `IndexError`) are retained. -/
def buildCell (cfg : Config) (cw cs : Option ChunkData) (cols r c : Nat)
    (prevRow rowRev : List BlockData) : Except PyErr BlockData :=
  if c = 0 then
    if r = 0 then
      -- FIRST ROW, FIRST COLUMN
      match cs, cw with
      | some sc, some wc => do
        -- chunk_w.grid[0][-1].se = chunk_s.grid[-1][0] (cross-chunk link)
        let _ ← pyNth2 sc.grid (-1) 0
        let wb ← pyNth2 wc.grid 0 (-1)
        -- new_block.x, new_block.y = 0, 0
        .ok { createDirection wb Direction.e with x := 0, y := 0 }
      | none, some wc => do
        let wb ← pyNth2 wc.grid 0 (-1)
        .ok { createDirection wb Direction.e with x := 0, y := 0 }
      | some sc, none => do
        let sb ← pyNth2 sc.grid (-1) 0
        .ok { createDirection sb Direction.n with x := 0, y := 0 }
      | none, none => .ok (blockNew cfg 0 0)
    else do
      -- OTHER ROWS, FIRST COLUMN
      let _ ← backfillWestReads cw r
      let below ← pyNth prevRow 0
      -- new_block.se = self.grid[r_i-1][c_i+1] (intra-chunk link)
      let _ ← pyNth prevRow ((c : Int) + 1)
      let _ ← westEdgeRead cw r
      .ok (createDirection below Direction.n)
  else if c = cols - 1 then do
    -- LAST COLUMN: new_block = row[-1].create_direction('e')
    let prev ← rowLast rowRev
    if r = 0 then
      .ok (createDirection prev Direction.e)
    else do
      -- new_block.s / new_block.sw into the row below (intra-chunk links)
      let _ ← pyNth prevRow (c : Int)
      let _ ← pyNth prevRow ((c : Int) - 1)
      .ok (createDirection prev Direction.e)
  else do
    -- OTHER COLUMNS
    let prev ← rowLast rowRev
    if r = 0 then
      match cs with
      | some sc => do
        -- sw/s/se into the south chunk's last row (cross-chunk links)
        let _ ← pyNth2 sc.grid (-1) ((c : Int) - 1)
        let _ ← pyNth2 sc.grid (-1) (c : Int)
        let _ ← pyNth2 sc.grid (-1) ((c : Int) + 1)
        .ok (createDirection prev Direction.e)
      | none => .ok (createDirection prev Direction.e)
    else do
      -- sw/s/se into the row below (intra-chunk links)
      let _ ← pyNth prevRow ((c : Int) - 1)
      let _ ← pyNth prevRow (c : Int)
      let _ ← pyNth prevRow ((c : Int) + 1)
      .ok (createDirection prev Direction.e)

/-- The inner `for c_i in range(n_cols)` loop of `build_blocks`: `fuel` cells
remain, `c` is the next column index, `rowRev` is the row so far in reverse.
Returns the completed row in reverse. -/
def buildRowAux (cfg : Config) (cw cs : Option ChunkData) (cols r : Nat)
    (prevRow : List BlockData) :
    Nat → Nat → List BlockData → Except PyErr (List BlockData)
  | 0, _, rowRev => .ok rowRev
  | fuel + 1, c, rowRev => do
    let b ← buildCell cfg cw cs cols r c prevRow rowRev
    buildRowAux cfg cw cs cols r prevRow fuel (c + 1) (b :: rowRev)

/-- The outer `for r_i in range(n_rows)` loop of `build_blocks`: `fuel` rows
remain, `r` is the next row index, `gridRev` is the grid so far in reverse
row order (the head is the previously completed row). -/
def buildGridAux (cfg : Config) (cw cs : Option ChunkData) (cols : Nat) :
    Nat → Nat → List (List BlockData) → Except PyErr (List (List BlockData))
  | 0, _, gridRev => .ok gridRev
  | fuel + 1, r, gridRev => do
    let rowRev ← buildRowAux cfg cw cs cols r (gridRev.headD []) cols 0 []
    buildGridAux cfg cw cs cols fuel (r + 1) (rowRev.reverse :: gridRev)

/-- The grid produced by `build_blocks` (rows in order), given the already
resolved west and south neighbor chunks.  `build_blocks` recomputes
`n_rows = self.height//config.block_height` and
`n_cols = self.width//config.block_width`, which agree with `nRows`/`nCols`
since `self.height`/`self.width` are the window dimensions. -/
def buildGridM (cfg : Config) (cw cs : Option ChunkData) :
    Except PyErr (List (List BlockData)) :=
  (buildGridAux cfg cw cs (nCols cfg) (nRows cfg) 0 []).map List.reverse

/-- `Chunk.build_blocks` as invoked on a freshly constructed chunk at
`(x, y)`: resolve the west neighbor `(x-1, y)` and the south neighbor
`(x, y-1)` through `Chunk.load` with the default `create=False`, build the
grid, call `self.save()` (note: `self.blocks` is still `[]` at that point —
the flat list is assigned only after the save), then set
`self.blocks = list(itertools.chain.from_iterable(self.grid))`. -/
def buildBlocksM (cfg : Config) (x y : Int) (db : DB) :
    Except PyErr (ChunkData × DB) := do
  let cw ← loadNoCreate cfg (x - 1) y db
  let cs ← loadNoCreate cfg x (y - 1) db
  let grid ← buildGridM cfg cw cs
  let c1 := { chunkInit x y none with grid := grid }
  let (c2, db2) := saveChunk c1 db
  .ok ({ c2 with blocks := grid.flatten }, db2)

/-- `Chunk.load(x, y, create)` (static): query the session by coordinate;
hydrate on a hit; on a miss either build-and-save (create) or return `None`.
The subsequent background-image, sprite, wall and mob population steps do not
affect the coordinate, name, grid, block list or database contents and are
omitted. -/
def loadChunk (cfg : Config) (x y : Int) (create : Bool) (db : DB) :
    Except PyErr (Option (ChunkData × DB)) :=
  match dbQueryIdx db x y 0 with
  | some (i, rec) => (hydrateChunk cfg i rec).map (fun c => some (c, db))
  | none =>
    if create then do
      let (c, db1) ← buildBlocksM cfg x y db
      let (c2, db2) := saveChunk c db1
      .ok (some (c2, db2))
    else .ok none

/-! ## The directional link structure

Blocks inside one chunk are identified by their grid cell `(row, col)`.
`chunk.py` wires links by plain attribute assignment (`block.s = ...`).  The
`Block` class itself is not under src/; per the spec, bidirectional
consistency of directional links "is enforced at generation time" (spec
section 3) and linking is direction-keyed (`DirectionMismatch`, section 7),
so a link assignment is modelled as writing the forward link and the reverse
link on the target.  The link state is the list of primitive slot writes in
reverse chronological order; a lookup returns the latest write to a slot. -/

/-- A grid cell `(row, col)` identifying a block inside one chunk. -/
structure Pos where
  r : Nat
  c : Nat
deriving DecidableEq, Repr

/-- A link-slot key: which block, which direction. -/
abbrev LinkKey := Pos × Direction

/-- One primitive write: the slot and the block it is pointed at. -/
abbrev LinkWrite := LinkKey × Pos

/-- One source-level link assignment `source.d = target`. -/
abbrev Assign := Pos × Direction × Pos

/-- Modelled from the spec: the effect of a single link assignment of
`Block` (block.py is not under src/).  Setting `a.d = b` writes the forward
slot `(a, d)` and the reverse slot `(b, opposite d)`, enforcing the
bidirectional-consistency invariant of spec section 3 at assignment time. -/
def expandAssign (a : Assign) : List LinkWrite :=
  [((a.1, a.2.1), a.2.2), ((a.2.2, oppDir a.2.1), a.1)]

/-- The link state after executing a list of assignments in program order,
starting from the all-unset state: the primitive writes, latest first. -/
def stateOf (as : List Assign) : List LinkWrite :=
  (as.flatMap expandAssign).reverse

/-- The current content of a link slot: the latest write to it, if any. -/
def lookupLink (S : List LinkWrite) (p : Pos) (d : Direction) : Option Pos :=
  (S.find? (fun e => decide (e.1 = (p, d)))).map (·.2)

/-- The cells of an R×C grid in row-major (iteration) order. -/
def gridCells (R C : Nat) : List Pos :=
  (List.range R).flatMap (fun r => (List.range C).map (fun c => ⟨r, c⟩))

/-- The column index Python's `self.grid[r_i-1][b_i-1]` actually reads in
`link_blocks`: for `b_i = 0` the subscript is `-1`, which wraps around to the
last column of the row below. -/
def wrapSW (C c : Nat) : Nat := if c = 0 then C - 1 else c - 1

/-- The link assignments `Chunk.link_blocks` executes for the cell `(r, c)`
of an R×C grid, in program order:
`block.s = grid[r-1][c]`, `block.sw = grid[r-1][c-1]` (with Python index
wraparound at `c = 0`), `block.se = grid[r-1][c+1]` if `c+1 != n_cols`,
all three only for `r != 0`; and `block.w = grid[r][c-1]` if `c != 0`. -/
def linkAssignsCell (C r c : Nat) : List Assign :=
  (if r ≠ 0 then
    [(⟨r, c⟩, Direction.s, ⟨r - 1, c⟩), (⟨r, c⟩, Direction.sw, ⟨r - 1, wrapSW C c⟩)]
      ++ (if c + 1 ≠ C then [(⟨r, c⟩, Direction.se, ⟨r - 1, c + 1⟩)] else [])
  else [])
    ++ (if c ≠ 0 then [(⟨r, c⟩, Direction.w, ⟨r, c - 1⟩)] else [])

/-- The link state `Chunk.link_blocks` leaves an R×C grid in. -/
def linkBlocksState (R C : Nat) : List LinkWrite :=
  stateOf ((gridCells R C).flatMap (fun p => linkAssignsCell C p.r p.c))

/-- The intra-chunk link assignments `Chunk.build_blocks` executes for the
cell `(r, c)` when both neighbor chunks are absent, in program order:
first column (`c = 0`), other rows: `new_block.se = self.grid[r-1][1]`;
last column: `new_block.s`, `new_block.sw`; other columns:
`new_block.sw`, `new_block.s`, `new_block.se` — each only for `r != 0`.
(The first row wires no intra-chunk links without a south neighbor, and the
`chunk_w`-guarded west-edge links are cross-chunk.) -/
def buildIntraCell (C r c : Nat) : List Assign :=
  if c = 0 then
    (if r ≠ 0 then [(⟨r, 0⟩, Direction.se, ⟨r - 1, 1⟩)] else [])
  else if c = C - 1 then
    (if r ≠ 0 then
      [(⟨r, c⟩, Direction.s, ⟨r - 1, c⟩), (⟨r, c⟩, Direction.sw, ⟨r - 1, c - 1⟩)]
    else [])
  else
    (if r ≠ 0 then
      [(⟨r, c⟩, Direction.sw, ⟨r - 1, c - 1⟩), (⟨r, c⟩, Direction.s, ⟨r - 1, c⟩),
       (⟨r, c⟩, Direction.se, ⟨r - 1, c + 1⟩)]
    else [])

/-- The intra-chunk link state `Chunk.build_blocks` leaves a freshly
generated R×C grid in when both the west and the south neighbor are absent. -/
def buildIntraState (R C : Nat) : List LinkWrite :=
  stateOf ((gridCells R C).flatMap (fun p => buildIntraCell C p.r p.c))

/-! ## The lazy neighbor accessors -/

/-- The target coordinate of each of the 8 named neighbor accessors, as
computed by the `dir_map` dictionary inside `LazyChunkLoader.__get__`. -/
def lazyTarget (d : Direction) (x y : Int) : Int × Int :=
  match d with
  | .n => (x, y + 1)
  | .ne => (x + 1, y + 1)
  | .e => (x + 1, y)
  | .se => (x + 1, y - 1)
  | .s => (x, y - 1)
  | .sw => (x - 1, y - 1)
  | .w => (x - 1, y)
  | .nw => (x - 1, y + 1)

/-- One resolution request issued to the chunk loader
(`world.load_chunk(*coords, create=True)`). -/
structure ResolveCall where
  cx : Int
  cy : Int
  create : Bool
deriving DecidableEq, Repr

/-- The resolution requests issued by `n` successive dereferences of one
neighbor accessor on a chunk at `(x, y)`.  `LazyChunkLoader.__get__` keeps no
per-instance state: every access recomputes the target from `dir_map` and
calls `world.load_chunk(*coords, create=True)` anew. -/
def lazyAccessTrace (d : Direction) (x y : Int) : Nat → List ResolveCall
  | 0 => []
  | n + 1 =>
    lazyAccessTrace d x y n ++ [⟨(lazyTarget d x y).1, (lazyTarget d x y).2, true⟩]

/-! ## The per-tick update loop -/

/-- A live game object as seen by `Chunk.update`: an identity (Python object
identity, for the `other_obj is obj` test) and the `mobile` and `collidable`
capability flags.  Behavior (`update`, `collides_with`, `on_collision`) is
external; `collides_with` is passed as a relation. -/
structure GObj where
  oid : Nat
  mobile : Bool
  collidable : Bool
deriving DecidableEq, Repr

/-- The body of the inner loop of `Chunk.update` for a mobile `obj` against
one `other_obj`: skip self (`other_obj is obj`), skip non-collidable others,
and on a detected collision invoke `obj.on_collision(other_obj)` followed by
`other_obj.on_collision(obj)` — recorded as (receiver, argument) events. -/
def collidePair (collides : GObj → GObj → Bool) (obj other : GObj) :
    List (GObj × GObj) :=
  if other = obj then []
  else if other.collidable then
    if collides obj other then [(obj, other), (other, obj)] else []
  else []

/-- The collision events one outer-loop iterand produces: a mobile object is
tested against every entry of the combined list, a non-mobile one against
none. -/
def objPass (collides : GObj → GObj → Bool) (objs : List GObj) (obj : GObj) :
    List (GObj × GObj) :=
  if obj.mobile then objs.flatMap (collidePair collides obj) else []

/-- The `on_collision` invocations (receiver, argument) performed by one
`Chunk.update` tick over the combined game-object list, in program order.
The unconditional `obj.update()` calls and the dead `collision_checked`
list do not produce collision callbacks. -/
def updateEvents (collides : GObj → GObj → Bool) (objs : List GObj) :
    List (GObj × GObj) :=
  objs.flatMap (objPass collides objs)

/-! ## Closed forms and concrete instances used by the theorems -/

/-- The block that generation places at grid cell `(r, c)`: chunk-local tile
position `(c, r)` with shared attributes `a`. -/
def cellB (r : Nat) (a : BlockAttrs) (c : Nat) : BlockData :=
  ⟨(c : Int), (r : Int), a⟩

/-- Row `r` of the closed-form generated grid: `C` blocks at positions
`(0, r) … (C-1, r)`, all with the same shared attributes. -/
def mkRow (r C : Nat) (a : BlockAttrs) : List BlockData :=
  (List.range C).map (cellB r a)

/-- The closed-form generated grid: `R` rows of `C` uniform blocks. -/
def mkGrid (R C : Nat) (a : BlockAttrs) : List (List BlockData) :=
  (List.range R).map (fun r => mkRow r C a)

/-- For each link-slot key written by `link_blocks`, the grid cell whose
iteration wrote it (used to show the written slots are pairwise distinct).
The `ne` case inverts the `wrapSW` column wraparound. -/
def keySourceLB (C : Nat) (k : LinkKey) : Pos :=
  match k.2 with
  | .s => k.1
  | .sw => k.1
  | .se => k.1
  | .w => k.1
  | .n => ⟨k.1.r + 1, k.1.c⟩
  | .ne => ⟨k.1.r + 1, if k.1.c = C - 1 then 0 else k.1.c + 1⟩
  | .nw => ⟨k.1.r + 1, k.1.c - 1⟩
  | .e => ⟨k.1.r, k.1.c + 1⟩

/-- For each link-slot key written by the intra-chunk assignments of
`build_blocks` (no neighbors), the grid cell whose iteration wrote it. -/
def keySourceBI (k : LinkKey) : Pos :=
  match k.2 with
  | .s => k.1
  | .sw => k.1
  | .se => k.1
  | .w => k.1
  | .n => ⟨k.1.r + 1, k.1.c⟩
  | .ne => ⟨k.1.r + 1, k.1.c + 1⟩
  | .nw => ⟨k.1.r + 1, k.1.c - 1⟩
  | .e => ⟨k.1.r, k.1.c + 1⟩

/-- A 4×4-pixel window with 2×2-pixel blocks: a 2×2 block grid. -/
def cfg4 : Config := ⟨4, 4, 2, 2⟩

/-- A 5×4-pixel window with 2×2-pixel blocks: the window width is not an
exact multiple of the block width. -/
def cfg5 : Config := ⟨5, 4, 2, 2⟩

/-- The shared attributes of every block generated under `cfg4`/`cfg5`. -/
def attrsD : BlockAttrs := ⟨2, 2, (0, 0, 0), false⟩

/-- The four blocks of the chunk generated at `(0, 0)` under `cfg4`, in
row-major order. -/
def blocks4 : List BlockData :=
  [⟨0, 0, attrsD⟩, ⟨1, 0, attrsD⟩, ⟨0, 1, attrsD⟩, ⟨1, 1, attrsD⟩]

/-- The 2×2 grid of the chunk generated at `(0, 0)` under `cfg4`. -/
def grid4 : List (List BlockData) :=
  [[⟨0, 0, attrsD⟩, ⟨1, 0, attrsD⟩], [⟨0, 1, attrsD⟩, ⟨1, 1, attrsD⟩]]

/-- The chunk returned by `Chunk.load(0, 0, create=True)` on an empty
database under `cfg4`. -/
def chunk4 : ChunkData := ⟨0, 0, "Chunk(0, 0)", grid4, blocks4, some 0⟩

/-- The database contents after that first resolving call. -/
def db4 : DB := [⟨0, 0, "Chunk(0, 0)", blocks4⟩]

/-! ## Theorems -/

/-- Claim C3: the claim states that on hydration a block in column 0 of a row
`r > 0` receives no south-west link.  In the code, `link_blocks` executes
`block.sw = self.grid[r_i-1][b_i-1]` unguarded, so at `b_i = 0` the Python
subscript `-1` wraps around: the cell `(1, 0)` of a 2×2 grid receives a
south-west link to cell `(0, 1)` — the last column of the row below.  (The
matching `se` assignment is guarded by `if b_i+1 != self.n_cols`, so the
missing guard on `sw` contradicts the evident intent; a freshly generated
grid also never wires such a link.) -/
theorem link_blocks_column0_wraparound_sw :
    lookupLink (linkBlocksState 2 2) ⟨1, 0⟩ Direction.sw = some ⟨0, 1⟩ := by
  decide

/-- Claim C7: the claim states that `load_blocks` on a chunk without a
backing record raises `NoDatabaseModel`.  The code executes
`raise NoDatabaseObject`, and `NoDatabaseObject` is an undefined name (line
18 imports `NoDatabaseModel`), so Python raises a `NameError` instead of the
imported missing-persisted-grid exception. -/
theorem load_blocks_missing_record_raises_nameError :
    loadBlocksData cfg4 none = .error (.nameError "NoDatabaseObject") ∧
    PyErr.nameError "NoDatabaseObject" ≠ PyErr.noDatabaseModel := by
  exact ⟨rfl, by decide⟩

/-- Claim C5 (counterexample): the claim states the resolved neighbor chunk
is memoized so that a second access does not resolve again; but
`LazyChunkLoader.__get__` keeps no state, so two accesses to the north
accessor of the chunk at `(0, 0)` issue two `create=true` resolution
requests for `(0, 1)`, not one. -/
theorem lazy_accessor_not_memoized_counterexample :
    lazyAccessTrace Direction.n 0 0 2 = [⟨0, 1, true⟩, ⟨0, 1, true⟩] ∧
    (lazyAccessTrace Direction.n 0 0 2).length ≠ 1 := by
  decide

/-- Claim C5 (amended): every dereference of a neighbor accessor — the first
and each subsequent one — computes the target coordinate from the chunk's
own coordinate via the fixed compass delta of `dir_map` (n ↦ (x, y+1), …,
sw ↦ (x-1, y-1)) and resolves it through the chunk loader with create=true;
the descriptor performs no memoization, so `n` accesses issue `n` identical
resolution requests. -/
theorem lazy_accessor_resolves_every_access :
    ∀ (d : Direction) (x y : Int) (n : Nat),
      lazyAccessTrace d x y n =
        List.replicate n ⟨(lazyTarget d x y).1, (lazyTarget d x y).2, true⟩ ∧
      lazyTarget Direction.n x y = (x, y + 1) ∧
      lazyTarget Direction.ne x y = (x + 1, y + 1) ∧
      lazyTarget Direction.e x y = (x + 1, y) ∧
      lazyTarget Direction.se x y = (x + 1, y - 1) ∧
      lazyTarget Direction.s x y = (x, y - 1) ∧
      lazyTarget Direction.sw x y = (x - 1, y - 1) ∧
      lazyTarget Direction.w x y = (x - 1, y) ∧
      lazyTarget Direction.nw x y = (x - 1, y + 1) := by
  intro d x y n
  refine ⟨?_, rfl, rfl, rfl, rfl, rfl, rfl, rfl, rfl⟩
  induction n with
  | zero => rfl
  | succ m ih =>
    rw [lazyAccessTrace, ih, List.replicate_succ']

/-- Claim C4 (counterexample): the claim states that during generation the
missing west and south neighbors are resolved with create=true and are
therefore created as part of the top-level resolve.  Resolving `(0, 0)` with
create=true on an empty database leaves `(-1, 0)` and `(0, -1)` unpersisted:
`build_blocks` calls `Chunk.load` with the default `create=False`. -/
theorem build_neighbors_not_created_counterexample :
    (loadChunk cfg4 0 0 true []).map
        (Option.map (fun p => (dbQuery p.2 (-1) 0, dbQuery p.2 0 (-1)))) =
      .ok (some (none, none)) := by
  rfl

/-- Claim C6 (counterexample): the claim states that the save performed at
the end of `build_blocks` persists every block of the R×C grid.  Under
`cfg4` (a 2×2 grid) the chunk's flat list holds 4 blocks after
`build_blocks`, but the database record it saved holds 0 blocks: `self.save()`
runs before `self.blocks` is assigned. -/
theorem build_blocks_save_persists_no_blocks_counterexample :
    (buildBlocksM cfg4 0 0 []).map
        (fun p => (p.1.blocks.length, p.2.map (fun r => r.blocks.length))) =
      .ok (4, [0]) := by
  rfl

/-- Claim C8 (counterexample): the claim states that chunk construction
raises a configuration error when the window dimensions are not exact
multiples of the block dimensions.  Under `cfg5` (window width 5, block
width 2) nothing is raised: generation completes with the silently truncated
quotient `n_cols = 5 // 2 = 2`, producing 4 blocks. -/
theorem non_multiple_window_silent_truncation_counterexample :
    (buildBlocksM cfg5 0 0 []).map (fun p => p.1.blocks.length) = .ok 4 ∧
    cfg5.window_width % cfg5.block_width ≠ 0 ∧
    nCols cfg5 = 2 := by
  exact ⟨rfl, by decide, rfl⟩

/-! ### Counting collision callbacks -/

theorem sum_map_add_nat {α : Type} (l : List α) (f g : α → Nat) :
    (l.map (fun x => f x + g x)).sum = (l.map f).sum + (l.map g).sum := by
  induction l with
  | nil => rfl
  | cons x t ih =>
    simp only [List.map_cons, List.sum_cons, ih]
    omega


theorem sum_map_ite_eq {α : Type} [DecidableEq α] (l : List α) (q : α) (c : Nat) :
    (l.map (fun x => if x = q then c else 0)).sum = c * l.count q := by
  induction l with
  | nil => simp
  | cons x t ih =>
    rw [List.map_cons, List.sum_cons, ih, List.count_cons]
    by_cases hx : x = q
    · subst hx
      rw [if_pos rfl, beq_self_eq_true, if_pos rfl, Nat.mul_add, Nat.mul_one]
      exact Nat.add_comm c (c * t.count x)
    · have hq : ¬((x == q) = true) := by simpa [beq_iff_eq] using hx
      rw [if_neg hx, if_neg hq]
      simp

theorem count_pair_two (P Q u1 u2 v1 v2 : GObj) :
    List.count (P, Q) [(u1, u2), (v1, v2)] =
      (if (P, Q) = (u1, u2) then 1 else 0)
        + (if (P, Q) = (v1, v2) then 1 else 0) := by
  have cv : ∀ (a b : GObj × GObj),
      (if (a == b) = true then (1 : Nat) else 0) = if b = a then 1 else 0 := by
    intro a b
    by_cases h : b = a
    · rw [if_pos h, if_pos (by simp [h])]
    · rw [if_neg h, if_neg (by simpa [beq_iff_eq] using fun hh => h hh.symm)]
  rw [List.count_cons, List.count_cons, List.count_nil, cv, cv]
  omega

theorem count_collidePair (collides : GObj → GObj → Bool) {P Q : GObj}
    (hPQ : P ≠ Q) (obj other : GObj) :
    ((collidePair collides obj other).count (P, Q)) =
      (if obj = P ∧ other = Q ∧ Q.collidable = true ∧ collides P Q = true
       then 1 else 0)
    + (if obj = Q ∧ other = P ∧ P.collidable = true ∧ collides Q P = true
       then 1 else 0) := by
  unfold collidePair
  by_cases h1 : other = obj
  · rw [if_pos h1, List.count_nil]
    have e1 : ¬(obj = P ∧ other = Q ∧ Q.collidable = true ∧
        collides P Q = true) := by
      rintro ⟨rfl, rfl, -, -⟩; exact hPQ h1.symm
    have e2 : ¬(obj = Q ∧ other = P ∧ P.collidable = true ∧
        collides Q P = true) := by
      rintro ⟨rfl, rfl, -, -⟩; exact hPQ h1
    rw [if_neg e1, if_neg e2]
  · rw [if_neg h1]
    by_cases h2 : other.collidable = true
    · rw [if_pos h2]
      by_cases h3 : collides obj other = true
      · rw [if_pos h3, count_pair_two]
        have t1 : (if (P, Q) = (obj, other) then 1 else 0)
            = (if obj = P ∧ other = Q ∧ Q.collidable = true ∧
                collides P Q = true then (1 : Nat) else 0) := by
          by_cases hu : (P, Q) = (obj, other)
          · have hP : P = obj := congrArg Prod.fst hu
            have hQ : Q = other := congrArg Prod.snd hu
            rw [if_pos hu, if_pos ⟨hP.symm, hQ.symm, by rw [hQ]; exact h2,
              by rw [hP, hQ]; exact h3⟩]
          · have hv : ¬(obj = P ∧ other = Q ∧ Q.collidable = true ∧
                collides P Q = true) := by
              rintro ⟨rfl, rfl, -, -⟩; exact hu rfl
            rw [if_neg hu, if_neg hv]
        have t2 : (if (P, Q) = (other, obj) then 1 else 0)
            = (if obj = Q ∧ other = P ∧ P.collidable = true ∧
                collides Q P = true then (1 : Nat) else 0) := by
          by_cases hu : (P, Q) = (other, obj)
          · have hP : P = other := congrArg Prod.fst hu
            have hQ : Q = obj := congrArg Prod.snd hu
            rw [if_pos hu, if_pos ⟨hQ.symm, hP.symm, by rw [hP]; exact h2,
              by rw [hQ, hP]; exact h3⟩]
          · have hv : ¬(obj = Q ∧ other = P ∧ P.collidable = true ∧
                collides Q P = true) := by
              rintro ⟨rfl, rfl, -, -⟩; exact hu rfl
            rw [if_neg hu, if_neg hv]
        rw [t1, t2]
      · rw [if_neg h3, List.count_nil]
        have e1 : ¬(obj = P ∧ other = Q ∧ Q.collidable = true ∧
            collides P Q = true) := by
          rintro ⟨rfl, rfl, -, hc⟩; exact h3 hc
        have e2 : ¬(obj = Q ∧ other = P ∧ P.collidable = true ∧
            collides Q P = true) := by
          rintro ⟨rfl, rfl, -, hc⟩; exact h3 hc
        rw [if_neg e1, if_neg e2]
    · rw [if_neg h2, List.count_nil]
      have e1 : ¬(obj = P ∧ other = Q ∧ Q.collidable = true ∧
          collides P Q = true) := by
        rintro ⟨rfl, rfl, hc, -⟩; exact h2 hc
      have e2 : ¬(obj = Q ∧ other = P ∧ P.collidable = true ∧
          collides Q P = true) := by
        rintro ⟨rfl, rfl, hc, -⟩; exact h2 hc
      rw [if_neg e1, if_neg e2]

theorem ite_one_mul_nat (C : Prop) [Decidable C] (n : Nat) :
    (if C then (1 : Nat) else 0) * n = if C then n else 0 := by
  by_cases h : C <;> simp [h]

theorem ite_mul_right_nat (C : Prop) [Decidable C] (a n : Nat) :
    (if C then a else 0) * n = if C then a * n else 0 := by
  by_cases h : C <;> simp [h]

theorem count_objPass (collides : GObj → GObj → Bool) (objs : List GObj)
    {P Q : GObj} (hPQ : P ≠ Q) (obj : GObj) :
    ((objPass collides objs obj).count (P, Q)) =
      (if obj = P ∧ P.mobile = true ∧ Q.collidable = true ∧
          collides P Q = true
       then objs.count Q else 0)
    + (if obj = Q ∧ Q.mobile = true ∧ P.collidable = true ∧
          collides Q P = true
       then objs.count P else 0) := by
  unfold objPass
  by_cases hm : obj.mobile = true
  · rw [if_pos hm, List.count_flatMap]
    have hfun : (List.count (P, Q) ∘ collidePair collides obj) = fun other =>
        (if obj = P ∧ other = Q ∧ Q.collidable = true ∧ collides P Q = true
         then (1 : Nat) else 0)
      + (if obj = Q ∧ other = P ∧ P.collidable = true ∧ collides Q P = true
         then (1 : Nat) else 0) :=
      funext (fun other => count_collidePair collides hPQ obj other)
    rw [hfun]
    have swap1 : ∀ other : GObj,
        (if obj = P ∧ other = Q ∧ Q.collidable = true ∧ collides P Q = true
         then (1 : Nat) else 0)
        = (if other = Q then
            (if obj = P ∧ Q.collidable = true ∧ collides P Q = true
             then (1 : Nat) else 0) else 0) := by
      intro other
      by_cases h : other = Q
      · by_cases h2 : obj = P ∧ Q.collidable = true ∧ collides P Q = true
        · rw [if_pos ⟨h2.1, h, h2.2⟩, if_pos h, if_pos h2]
        · rw [if_neg (fun hh => h2 ⟨hh.1, hh.2.2⟩), if_pos h, if_neg h2]
      · rw [if_neg (fun hh => h hh.2.1), if_neg h]
    have swap2 : ∀ other : GObj,
        (if obj = Q ∧ other = P ∧ P.collidable = true ∧ collides Q P = true
         then (1 : Nat) else 0)
        = (if other = P then
            (if obj = Q ∧ P.collidable = true ∧ collides Q P = true
             then (1 : Nat) else 0) else 0) := by
      intro other
      by_cases h : other = P
      · by_cases h2 : obj = Q ∧ P.collidable = true ∧ collides Q P = true
        · rw [if_pos ⟨h2.1, h, h2.2⟩, if_pos h, if_pos h2]
        · rw [if_neg (fun hh => h2 ⟨hh.1, hh.2.2⟩), if_pos h, if_neg h2]
      · rw [if_neg (fun hh => h hh.2.1), if_neg h]
    have heq :
        (fun other =>
          (if obj = P ∧ other = Q ∧ Q.collidable = true ∧
              collides P Q = true then (1 : Nat) else 0)
        + (if obj = Q ∧ other = P ∧ P.collidable = true ∧
              collides Q P = true then (1 : Nat) else 0))
        = (fun other =>
          (if other = Q then
            (if obj = P ∧ Q.collidable = true ∧ collides P Q = true
             then (1 : Nat) else 0) else 0)
        + (if other = P then
            (if obj = Q ∧ P.collidable = true ∧ collides Q P = true
             then (1 : Nat) else 0) else 0)) :=
      funext (fun other => by rw [swap1 other, swap2 other])
    rw [heq]
    rw [sum_map_add_nat, sum_map_ite_eq, sum_map_ite_eq,
        ite_one_mul_nat, ite_one_mul_nat]
    have addm1 :
        (if obj = P ∧ Q.collidable = true ∧ collides P Q = true
         then objs.count Q else 0)
        = (if obj = P ∧ P.mobile = true ∧ Q.collidable = true ∧
            collides P Q = true then objs.count Q else 0) := by
      by_cases h2 : obj = P ∧ Q.collidable = true ∧ collides P Q = true
      · rw [if_pos h2, if_pos ⟨h2.1, h2.1 ▸ hm, h2.2.1, h2.2.2⟩]
      · rw [if_neg h2, if_neg (fun hh => h2 ⟨hh.1, hh.2.2.1, hh.2.2.2⟩)]
    have addm2 :
        (if obj = Q ∧ P.collidable = true ∧ collides Q P = true
         then objs.count P else 0)
        = (if obj = Q ∧ Q.mobile = true ∧ P.collidable = true ∧
            collides Q P = true then objs.count P else 0) := by
      by_cases h2 : obj = Q ∧ P.collidable = true ∧ collides Q P = true
      · rw [if_pos h2, if_pos ⟨h2.1, h2.1 ▸ hm, h2.2.1, h2.2.2⟩]
      · rw [if_neg h2, if_neg (fun hh => h2 ⟨hh.1, hh.2.2.1, hh.2.2.2⟩)]
    rw [addm1, addm2]
  · rw [if_neg hm, List.count_nil]
    have e1 : ¬(obj = P ∧ P.mobile = true ∧ Q.collidable = true ∧
        collides P Q = true) := by
      rintro ⟨rfl, hmob, -, -⟩; exact hm hmob
    have e2 : ¬(obj = Q ∧ Q.mobile = true ∧ P.collidable = true ∧
        collides Q P = true) := by
      rintro ⟨rfl, hmob, -, -⟩; exact hm hmob
    rw [if_neg e1, if_neg e2]

theorem count_updateEvents (collides : GObj → GObj → Bool) (objs : List GObj)
    {P Q : GObj} (hPQ : P ≠ Q) :
    ((updateEvents collides objs).count (P, Q)) =
      (if P.mobile = true ∧ Q.collidable = true ∧ collides P Q = true
       then objs.count P * objs.count Q else 0)
    + (if Q.mobile = true ∧ P.collidable = true ∧ collides Q P = true
       then objs.count Q * objs.count P else 0) := by
  unfold updateEvents
  rw [List.count_flatMap]
  have hfun : (List.count (P, Q) ∘ objPass collides objs) = fun obj =>
      (if obj = P ∧ P.mobile = true ∧ Q.collidable = true ∧
          collides P Q = true then objs.count Q else 0)
    + (if obj = Q ∧ Q.mobile = true ∧ P.collidable = true ∧
          collides Q P = true then objs.count P else 0) :=
    funext (fun obj => count_objPass collides objs hPQ obj)
  rw [hfun]
  have swap1 : ∀ obj : GObj,
      (if obj = P ∧ P.mobile = true ∧ Q.collidable = true ∧
          collides P Q = true then objs.count Q else 0)
      = (if obj = P then
          (if P.mobile = true ∧ Q.collidable = true ∧ collides P Q = true
           then objs.count Q else 0) else 0) := by
    intro obj
    by_cases h : obj = P
    · by_cases h2 : P.mobile = true ∧ Q.collidable = true ∧
          collides P Q = true
      · rw [if_pos ⟨h, h2.1, h2.2.1, h2.2.2⟩, if_pos h, if_pos h2]
      · rw [if_neg (fun hh => h2 ⟨hh.2.1, hh.2.2.1, hh.2.2.2⟩),
            if_pos h, if_neg h2]
    · rw [if_neg (fun hh => h hh.1), if_neg h]
  have swap2 : ∀ obj : GObj,
      (if obj = Q ∧ Q.mobile = true ∧ P.collidable = true ∧
          collides Q P = true then objs.count P else 0)
      = (if obj = Q then
          (if Q.mobile = true ∧ P.collidable = true ∧ collides Q P = true
           then objs.count P else 0) else 0) := by
    intro obj
    by_cases h : obj = Q
    · by_cases h2 : Q.mobile = true ∧ P.collidable = true ∧
          collides Q P = true
      · rw [if_pos ⟨h, h2.1, h2.2.1, h2.2.2⟩, if_pos h, if_pos h2]
      · rw [if_neg (fun hh => h2 ⟨hh.2.1, hh.2.2.1, hh.2.2.2⟩),
            if_pos h, if_neg h2]
    · rw [if_neg (fun hh => h hh.1), if_neg h]
  have heq :
      (fun obj =>
        (if obj = P ∧ P.mobile = true ∧ Q.collidable = true ∧
            collides P Q = true then objs.count Q else 0)
      + (if obj = Q ∧ Q.mobile = true ∧ P.collidable = true ∧
            collides Q P = true then objs.count P else 0))
      = (fun obj =>
        (if obj = P then
          (if P.mobile = true ∧ Q.collidable = true ∧ collides P Q = true
           then objs.count Q else 0) else 0)
      + (if obj = Q then
          (if Q.mobile = true ∧ P.collidable = true ∧ collides Q P = true
           then objs.count P else 0) else 0)) :=
    funext (fun obj => by rw [swap1 obj, swap2 obj])
  rw [heq]
  rw [sum_map_add_nat, sum_map_ite_eq, sum_map_ite_eq,
      ite_mul_right_nat, ite_mul_right_nat,
      Nat.mul_comm (objs.count Q) (objs.count P)]

/-- Claim C9: if the chunk's game-object list contains (exactly once each)
two distinct objects A — mobile and collidable — and B — collidable but not
mobile — then during a tick in which `collides_with` holds between them
`on_collision` is invoked exactly once on A (with B as argument) and exactly
once on B (with A as argument), and zero times on each during a tick in
which it does not hold.  (Only A is mobile, so only the outer iteration at A
tests the pair; it notifies both participants once.) -/
theorem update_collision_once_mobile_vs_static
    (collides : GObj → GObj → Bool) (objs : List GObj) (A B : GObj)
    (hAB : A ≠ B) (hAm : A.mobile = true) (hAc : A.collidable = true)
    (hBm : B.mobile = false) (hBc : B.collidable = true)
    (hcA : objs.count A = 1) (hcB : objs.count B = 1) :
    (collides A B = true ∧ collides B A = true →
      (updateEvents collides objs).count (A, B) = 1 ∧
      (updateEvents collides objs).count (B, A) = 1) ∧
    (collides A B = false ∧ collides B A = false →
      (updateEvents collides objs).count (A, B) = 0 ∧
      (updateEvents collides objs).count (B, A) = 0) := by
  have hBA : B ≠ A := fun h => hAB h.symm
  have hBm' : ¬(B.mobile = true) := by rw [hBm]; exact Bool.false_ne_true
  constructor
  · rintro ⟨h1, -⟩
    constructor
    · rw [count_updateEvents collides objs hAB, if_pos ⟨hAm, hBc, h1⟩,
          if_neg (fun hh => hBm' hh.1), hcA, hcB]
    · rw [count_updateEvents collides objs hBA,
          if_neg (fun hh => hBm' hh.1), if_pos ⟨hAm, hBc, h1⟩, hcA, hcB]
  · rintro ⟨h1, -⟩
    have hnc : ¬(collides A B = true) := by rw [h1]; exact Bool.false_ne_true
    constructor
    · rw [count_updateEvents collides objs hAB,
          if_neg (fun hh => hnc hh.2.2), if_neg (fun hh => hBm' hh.1)]
    · rw [count_updateEvents collides objs hBA,
          if_neg (fun hh => hBm' hh.1), if_neg (fun hh => hnc hh.2.2)]

/-- Witness for C9: two concrete objects, a mobile collidable A and a static
collidable B, alone in the list with an always-true collision relation:
each receives exactly one callback. -/
theorem update_collision_once_mobile_vs_static_witness :
    (updateEvents (fun _ _ => true)
        [⟨0, true, true⟩, ⟨1, false, true⟩]).count
      (⟨0, true, true⟩, ⟨1, false, true⟩) = 1 ∧
    (updateEvents (fun _ _ => true)
        [⟨0, true, true⟩, ⟨1, false, true⟩]).count
      (⟨1, false, true⟩, ⟨0, true, true⟩) = 1 :=
  (update_collision_once_mobile_vs_static (fun _ _ => true)
      [⟨0, true, true⟩, ⟨1, false, true⟩] ⟨0, true, true⟩ ⟨1, false, true⟩
      (by decide) rfl rfl rfl rfl (by decide) (by decide)).1 ⟨rfl, rfl⟩

/-- Claim C10: if the chunk's game-object list contains (exactly once each)
two distinct objects A and B, both mobile and collidable, and
`collides_with` holds between them in both directions, then `on_collision`
is invoked exactly twice on each of A and B during the tick — once when A is
the outer iterand and once when B is — not once. -/
theorem update_collision_twice_both_mobile
    (collides : GObj → GObj → Bool) (objs : List GObj) (A B : GObj)
    (hAB : A ≠ B) (hAm : A.mobile = true) (hAc : A.collidable = true)
    (hBm : B.mobile = true) (hBc : B.collidable = true)
    (hcA : objs.count A = 1) (hcB : objs.count B = 1)
    (h1 : collides A B = true) (h2 : collides B A = true) :
    (updateEvents collides objs).count (A, B) = 2 ∧
    (updateEvents collides objs).count (B, A) = 2 := by
  have hBA : B ≠ A := fun h => hAB h.symm
  constructor
  · rw [count_updateEvents collides objs hAB, if_pos ⟨hAm, hBc, h1⟩,
        if_pos ⟨hBm, hAc, h2⟩, hcA, hcB]
  · rw [count_updateEvents collides objs hBA, if_pos ⟨hBm, hAc, h2⟩,
        if_pos ⟨hAm, hBc, h1⟩, hcA, hcB]

/-- Witness for C10: two concrete mobile collidable objects alone in the
list with an always-true collision relation: each receives exactly two
callbacks in one tick. -/
theorem update_collision_twice_both_mobile_witness :
    (updateEvents (fun _ _ => true)
        [⟨0, true, true⟩, ⟨1, true, true⟩]).count
      (⟨0, true, true⟩, ⟨1, true, true⟩) = 2 ∧
    (updateEvents (fun _ _ => true)
        [⟨0, true, true⟩, ⟨1, true, true⟩]).count
      (⟨1, true, true⟩, ⟨0, true, true⟩) = 2 :=
  update_collision_twice_both_mobile (fun _ _ => true)
    [⟨0, true, true⟩, ⟨1, true, true⟩] ⟨0, true, true⟩ ⟨1, true, true⟩
    (by decide) rfl rfl rfl rfl (by decide) (by decide) rfl rfl

/-! ### Bidirectional symmetry of the link state -/

theorem oppDir_oppDir (d : Direction) : oppDir (oppDir d) = d := by
  cases d <;> rfl

theorem lookupLink_symm (as : List Assign)
    (hnd : ((as.flatMap expandAssign).map (·.1)).Nodup)
    (p : Pos) (d : Direction) (q : Pos)
    (h : lookupLink (stateOf as) p d = some q) :
    lookupLink (stateOf as) q (oppDir d) = some p := by
  unfold lookupLink stateOf at h ⊢
  obtain ⟨w, hw, hw2⟩ : ∃ w,
      (as.flatMap expandAssign).reverse.find?
        (fun e => decide (e.1 = (p, d))) = some w ∧ w.2 = q := by
    cases hfind : (as.flatMap expandAssign).reverse.find?
        (fun e => decide (e.1 = (p, d))) with
    | none => rw [hfind] at h; exact absurd h (by simp)
    | some w => rw [hfind] at h; exact ⟨w, rfl, by simpa using h⟩
  have hwkey : w.1 = (p, d) := by simpa using List.find?_some hw
  have hwmem : w ∈ as.flatMap expandAssign :=
    List.mem_reverse.mp (List.mem_of_find?_eq_some hw)
  obtain ⟨a, ha, hwa⟩ := List.mem_flatMap.mp hwmem
  have hpartner : ∃ w', w' ∈ expandAssign a ∧
      w'.1 = (q, oppDir d) ∧ w'.2 = p := by
    have hwa' : w = ((a.1, a.2.1), a.2.2) ∨
        w = ((a.2.2, oppDir a.2.1), a.1) := by
      simpa [expandAssign] using hwa
    rcases hwa' with h1 | h1
    · rw [h1] at hwkey hw2
      have e1 : a.1 = p := congrArg Prod.fst hwkey
      have e2 : a.2.1 = d := congrArg Prod.snd hwkey
      have e3 : a.2.2 = q := hw2
      refine ⟨((a.2.2, oppDir a.2.1), a.1), by simp [expandAssign], ?_, e1⟩
      rw [e2, e3]
    · rw [h1] at hwkey hw2
      have e1 : a.2.2 = p := congrArg Prod.fst hwkey
      have e2 : oppDir a.2.1 = d := congrArg Prod.snd hwkey
      have e4 : a.2.1 = oppDir d := by rw [← e2, oppDir_oppDir]
      have e3 : a.1 = q := hw2
      refine ⟨((a.1, a.2.1), a.2.2), by simp [expandAssign], ?_, e1⟩
      rw [e3, e4]
  obtain ⟨w', hw'mem, hw'key, hw'val⟩ := hpartner
  have hw'memF : w' ∈ as.flatMap expandAssign :=
    List.mem_flatMap.mpr ⟨a, ha, hw'mem⟩
  have hsome : ((as.flatMap expandAssign).reverse.find?
      (fun e => decide (e.1 = (q, oppDir d)))).isSome = true :=
    List.find?_isSome.mpr
      ⟨w', List.mem_reverse.mpr hw'memF, decide_eq_true hw'key⟩
  obtain ⟨f, hf⟩ := Option.isSome_iff_exists.mp hsome
  have hfkey : f.1 = (q, oppDir d) := by simpa using List.find?_some hf
  have hfmem : f ∈ as.flatMap expandAssign :=
    List.mem_reverse.mp (List.mem_of_find?_eq_some hf)
  have hfw : f = w' :=
    List.inj_on_of_nodup_map hnd hfmem hw'memF (by rw [hfkey, hw'key])
  rw [hf]
  simp [hfw, hw'val]

theorem nodup_keys_flatMap (cells : List Pos) (f : Pos → List Assign)
    (ks : LinkKey → Pos) (hc : cells.Nodup)
    (hcell : ∀ rc ∈ cells, (((f rc).flatMap expandAssign).map (·.1)).Nodup)
    (hsrc : ∀ rc ∈ cells, ∀ w ∈ (f rc).flatMap expandAssign, ks w.1 = rc) :
    (((cells.flatMap f).flatMap expandAssign).map (·.1)).Nodup := by
  rw [List.flatMap_assoc, List.map_flatMap, List.nodup_flatMap]
  refine ⟨fun rc hrc => hcell rc hrc, ?_⟩
  have hne : cells.Pairwise (· ≠ ·) := hc
  refine hne.imp_of_mem ?_
  intro a b ha hb hab k hka hkb
  obtain ⟨wa, hwa, hka2⟩ := List.mem_map.mp hka
  obtain ⟨wb, hwb, hkb2⟩ := List.mem_map.mp hkb
  apply hab
  rw [← hsrc a ha wa hwa, ← hsrc b hb wb hwb, hka2, hkb2]

theorem mem_gridCells {R C : Nat} {p : Pos} :
    p ∈ gridCells R C ↔ p.r < R ∧ p.c < C := by
  constructor
  · intro h
    obtain ⟨r, hr, hp⟩ := List.mem_flatMap.mp h
    obtain ⟨c, hc, hpc⟩ := List.mem_map.mp hp
    cases hpc
    exact ⟨List.mem_range.mp hr, List.mem_range.mp hc⟩
  · intro h
    exact List.mem_flatMap.mpr ⟨p.r, List.mem_range.mpr h.1,
      List.mem_map.mpr ⟨p.c, List.mem_range.mpr h.2, rfl⟩⟩

theorem nodup_gridCells (R C : Nat) : (gridCells R C).Nodup := by
  unfold gridCells
  rw [List.nodup_flatMap]
  refine ⟨fun r _ => ?_, ?_⟩
  · exact List.Nodup.map (fun a b hab => congrArg Pos.c hab)
      (List.nodup_range C)
  · refine (List.pairwise_lt_range R).imp ?_
    intro r1 r2 hlt k hk1 hk2
    obtain ⟨c1, -, e1⟩ := List.mem_map.mp hk1
    obtain ⟨c2, -, e2⟩ := List.mem_map.mp hk2
    have : r1 = r2 := by
      have := congrArg Pos.r (e1.trans e2.symm)
      exact this
    omega

theorem mem_linkAssignsCell (C r c : Nat) (a : Assign)
    (ha : a ∈ linkAssignsCell C r c) :
    (r ≠ 0 ∧ a = (⟨r, c⟩, Direction.s, ⟨r - 1, c⟩)) ∨
    (r ≠ 0 ∧ a = (⟨r, c⟩, Direction.sw, ⟨r - 1, wrapSW C c⟩)) ∨
    (r ≠ 0 ∧ c + 1 ≠ C ∧ a = (⟨r, c⟩, Direction.se, ⟨r - 1, c + 1⟩)) ∨
    (c ≠ 0 ∧ a = (⟨r, c⟩, Direction.w, ⟨r, c - 1⟩)) := by
  unfold linkAssignsCell at ha
  by_cases hr : r ≠ 0 <;> by_cases hse : c + 1 ≠ C <;> by_cases hc : c ≠ 0 <;>
    simp [hr, hse, hc] at ha <;> tauto

theorem expandAssign_cases (a : Assign) (w : LinkWrite)
    (hw : w ∈ expandAssign a) :
    w = ((a.1, a.2.1), a.2.2) ∨ w = ((a.2.2, oppDir a.2.1), a.1) := by
  simpa [expandAssign] using hw

theorem linkAssignsCell_keys_nodup (C : Nat) (rc : Pos) :
    (((linkAssignsCell C rc.r rc.c).flatMap expandAssign).map (·.1)).Nodup := by
  obtain ⟨r, c⟩ := rc
  by_cases hr : r ≠ 0 <;> by_cases hse : c + 1 ≠ C <;> by_cases hc : c ≠ 0 <;>
    simp [linkAssignsCell, expandAssign, hr, hse, hc, oppDir]

theorem linkAssignsCell_keySource (C r c : Nat) (hc2 : c < C) :
    ∀ w ∈ (linkAssignsCell C r c).flatMap expandAssign,
      keySourceLB C w.1 = ⟨r, c⟩ := by
  intro w hw
  obtain ⟨a, ha, hwa⟩ := List.mem_flatMap.mp hw
  rcases mem_linkAssignsCell C r c a ha with
      ⟨hr, rfl⟩ | ⟨hr, rfl⟩ | ⟨hr, hse, rfl⟩ | ⟨hc, rfl⟩ <;>
    rcases expandAssign_cases _ _ hwa with rfl | rfl <;>
    simp [keySourceLB, oppDir, wrapSW, Pos.mk.injEq] <;>
    first
      | omega
      | (split_ifs <;> omega)

theorem mem_buildIntraCell (C r c : Nat) (a : Assign)
    (ha : a ∈ buildIntraCell C r c) :
    (c = 0 ∧ r ≠ 0 ∧ a = (⟨r, 0⟩, Direction.se, ⟨r - 1, 1⟩)) ∨
    (c ≠ 0 ∧ r ≠ 0 ∧ a = (⟨r, c⟩, Direction.s, ⟨r - 1, c⟩)) ∨
    (c ≠ 0 ∧ r ≠ 0 ∧ a = (⟨r, c⟩, Direction.sw, ⟨r - 1, c - 1⟩)) ∨
    (c ≠ 0 ∧ r ≠ 0 ∧ a = (⟨r, c⟩, Direction.se, ⟨r - 1, c + 1⟩)) := by
  unfold buildIntraCell at ha
  by_cases h0 : c = 0
  · rw [if_pos h0] at ha
    by_cases hr : r ≠ 0
    · rw [if_pos hr] at ha
      simp at ha
      subst h0
      exact Or.inl ⟨rfl, hr, ha⟩
    · rw [if_neg hr] at ha
      simp at ha
  · rw [if_neg h0] at ha
    by_cases hlast : c = C - 1
    · rw [if_pos hlast] at ha
      by_cases hr : r ≠ 0
      · rw [if_pos hr] at ha
        simp at ha
        rcases ha with rfl | rfl
        · exact Or.inr (Or.inl ⟨h0, hr, rfl⟩)
        · exact Or.inr (Or.inr (Or.inl ⟨h0, hr, rfl⟩))
      · rw [if_neg hr] at ha
        simp at ha
    · rw [if_neg hlast] at ha
      by_cases hr : r ≠ 0
      · rw [if_pos hr] at ha
        simp at ha
        rcases ha with rfl | rfl | rfl
        · exact Or.inr (Or.inr (Or.inl ⟨h0, hr, rfl⟩))
        · exact Or.inr (Or.inl ⟨h0, hr, rfl⟩)
        · exact Or.inr (Or.inr (Or.inr ⟨h0, hr, rfl⟩))
      · rw [if_neg hr] at ha
        simp at ha

theorem buildIntraCell_keys_nodup (C r c : Nat) :
    (((buildIntraCell C r c).flatMap expandAssign).map (·.1)).Nodup := by
  unfold buildIntraCell
  by_cases h0 : c = 0
  · rw [if_pos h0]
    by_cases hr : r ≠ 0
    · rw [if_pos hr]; simp [expandAssign, oppDir]
    · rw [if_neg hr]; simp
  · rw [if_neg h0]
    by_cases hlast : c = C - 1
    · rw [if_pos hlast]
      by_cases hr : r ≠ 0
      · rw [if_pos hr]; simp [expandAssign, oppDir]
      · rw [if_neg hr]; simp
    · rw [if_neg hlast]
      by_cases hr : r ≠ 0
      · rw [if_pos hr]; simp [expandAssign, oppDir]
      · rw [if_neg hr]; simp

theorem buildIntraCell_keySource (C r c : Nat) :
    ∀ w ∈ (buildIntraCell C r c).flatMap expandAssign,
      keySourceBI w.1 = ⟨r, c⟩ := by
  intro w hw
  obtain ⟨a, ha, hwa⟩ := List.mem_flatMap.mp hw
  rcases mem_buildIntraCell C r c a ha with
      ⟨h0, hr, rfl⟩ | ⟨hc, hr, rfl⟩ | ⟨hc, hr, rfl⟩ | ⟨hc, hr, rfl⟩ <;>
    rcases expandAssign_cases _ _ hwa with rfl | rfl <;>
    simp [keySourceBI, oppDir, Pos.mk.injEq] <;>
    omega

theorem linkBlocks_keys_nodup (R C : Nat) :
    ((((gridCells R C).flatMap
        (fun p => linkAssignsCell C p.r p.c)).flatMap expandAssign).map
      (·.1)).Nodup :=
  nodup_keys_flatMap (gridCells R C) (fun p => linkAssignsCell C p.r p.c)
    (keySourceLB C) (nodup_gridCells R C)
    (fun rc _ => linkAssignsCell_keys_nodup C rc)
    (fun rc hrc =>
      linkAssignsCell_keySource C rc.r rc.c (mem_gridCells.mp hrc).2)

theorem buildIntra_keys_nodup (R C : Nat) :
    ((((gridCells R C).flatMap
        (fun p => buildIntraCell C p.r p.c)).flatMap expandAssign).map
      (·.1)).Nodup :=
  nodup_keys_flatMap (gridCells R C) (fun p => buildIntraCell C p.r p.c)
    keySourceBI (nodup_gridCells R C)
    (fun rc _ => buildIntraCell_keys_nodup C rc.r rc.c)
    (fun rc _ => buildIntraCell_keySource C rc.r rc.c)

/-- Claim C2: within a single chunk's grid, every directional neighbor link
wired during intra-chunk linking is bidirectionally symmetric: for any two
cells A and B and direction D, if A's link in direction D points to B then
B's link in the opposite direction points back to A (in particular, if
A.s = B then B.n = A).  This holds both for the state `link_blocks` leaves
any R×C grid in (hydration path) and for the intra-chunk link state a
completed no-neighbor generation (`build_blocks`) leaves its grid in.  Block
link assignment wires the reverse link on the target (spec section 3:
bidirectional consistency "enforced at generation time"; block.py is not
under src/), and no link slot is ever written twice, which the proof
establishes by exhibiting, for every written slot, the unique grid cell
whose iteration wrote it. -/
theorem intra_chunk_link_symmetry :
    (∀ (R C : Nat) (p : Pos) (d : Direction) (q : Pos),
      lookupLink (linkBlocksState R C) p d = some q →
      lookupLink (linkBlocksState R C) q (oppDir d) = some p) ∧
    (∀ (cfg : Config) (g : List (List BlockData)) (p : Pos) (d : Direction)
        (q : Pos),
      buildGridM cfg none none = .ok g →
      lookupLink (buildIntraState (nRows cfg) (nCols cfg)) p d = some q →
      lookupLink (buildIntraState (nRows cfg) (nCols cfg)) q (oppDir d) =
        some p) :=
  ⟨fun R C p d q h =>
    lookupLink_symm _ (linkBlocks_keys_nodup R C) p d q h,
   fun cfg _ p d q _ h =>
    lookupLink_symm _ (buildIntra_keys_nodup (nRows cfg) (nCols cfg)) p d q h⟩

/-- Witness for C2: in a 2×2 grid, cell (1,0) has its south link on cell
(0,0) after `link_blocks`, so (0,0)'s north link points back at it; and in a
freshly generated 2×2 chunk (no neighbors, `cfg4`), cell (1,1) has its south
link on cell (0,1), so (0,1)'s north link points back at it. -/
theorem intra_chunk_link_symmetry_witness :
    lookupLink (linkBlocksState 2 2) ⟨0, 0⟩ Direction.n = some ⟨1, 0⟩ ∧
    lookupLink (buildIntraState 2 2) ⟨0, 1⟩ Direction.n = some ⟨1, 1⟩ :=
  ⟨intra_chunk_link_symmetry.1 2 2 ⟨1, 0⟩ Direction.s ⟨0, 0⟩ (by decide),
   intra_chunk_link_symmetry.2 cfg4 grid4 ⟨1, 1⟩ Direction.s ⟨0, 1⟩
     rfl (by decide)⟩

/-! ### Characterizing the generated grid -/

theorem except_bind_ok {α β : Type} {m : Except PyErr α}
    {f : α → Except PyErr β} {b : β} (h : (m >>= f) = .ok b) :
    ∃ a, m = .ok a ∧ f a = .ok b := by
  cases m with
  | error e => simp [Bind.bind, Except.bind] at h
  | ok a => exact ⟨a, rfl, h⟩

theorem rowLast_ok {rowRev : List BlockData} {p : BlockData}
    (h : rowLast rowRev = .ok p) : ∃ rest, rowRev = p :: rest := by
  cases rowRev with
  | nil => simp [rowLast] at h
  | cons q rest =>
    injection h with h
    exact ⟨rest, by rw [h]⟩

theorem buildCell_c0_r0 {cfg : Config} {cw cs : Option ChunkData}
    {cols : Nat} {prevRow rowRev : List BlockData} {b : BlockData}
    (h : buildCell cfg cw cs cols 0 0 prevRow rowRev = .ok b) :
    b.x = 0 ∧ b.y = 0 := by
  unfold buildCell at h
  rw [if_pos rfl, if_pos rfl] at h
  cases cs with
  | some sc =>
    cases cw with
    | some wc =>
      rcases except_bind_ok h with ⟨u, h1, h⟩
      rcases except_bind_ok h with ⟨wb, h2, h⟩
      injection h with h
      rw [← h]
      exact ⟨rfl, rfl⟩
    | none =>
      rcases except_bind_ok h with ⟨sb, h1, h⟩
      injection h with h
      rw [← h]
      exact ⟨rfl, rfl⟩
  | none =>
    cases cw with
    | some wc =>
      rcases except_bind_ok h with ⟨wb, h1, h⟩
      injection h with h
      rw [← h]
      exact ⟨rfl, rfl⟩
    | none =>
      injection h with h
      rw [← h]
      exact ⟨rfl, rfl⟩

theorem buildCell_c0_rpos {cfg : Config} {cw cs : Option ChunkData}
    {cols r : Nat} {prevRow rowRev : List BlockData} {b : BlockData}
    (hr : r ≠ 0)
    (h : buildCell cfg cw cs cols r 0 prevRow rowRev = .ok b) :
    ∃ p, pyNth prevRow 0 = .ok p ∧ b = createDirection p Direction.n := by
  unfold buildCell at h
  rw [if_pos rfl, if_neg hr] at h
  rcases except_bind_ok h with ⟨u1, h1, h⟩
  rcases except_bind_ok h with ⟨below, h2, h⟩
  rcases except_bind_ok h with ⟨u2, h3, h⟩
  rcases except_bind_ok h with ⟨u3, h4, h⟩
  injection h with h
  exact ⟨below, h2, h.symm⟩

theorem buildCell_cpos {cfg : Config} {cw cs : Option ChunkData}
    {cols r c : Nat} {prevRow rowRev : List BlockData} {b : BlockData}
    (hc : c ≠ 0)
    (h : buildCell cfg cw cs cols r c prevRow rowRev = .ok b) :
    ∃ p rest, rowRev = p :: rest ∧ b = createDirection p Direction.e := by
  unfold buildCell at h
  rw [if_neg hc] at h
  by_cases hlast : c = cols - 1
  · rw [if_pos hlast] at h
    rcases except_bind_ok h with ⟨prev, hp, h⟩
    obtain ⟨rest, hrest⟩ := rowLast_ok hp
    refine ⟨prev, rest, hrest, ?_⟩
    by_cases hr : r = 0
    · rw [if_pos hr] at h
      injection h with h
      exact h.symm
    · rw [if_neg hr] at h
      rcases except_bind_ok h with ⟨u1, h1, h⟩
      rcases except_bind_ok h with ⟨u2, h2, h⟩
      injection h with h
      exact h.symm
  · rw [if_neg hlast] at h
    rcases except_bind_ok h with ⟨prev, hp, h⟩
    obtain ⟨rest, hrest⟩ := rowLast_ok hp
    refine ⟨prev, rest, hrest, ?_⟩
    by_cases hr : r = 0
    · rw [if_pos hr] at h
      cases cs with
      | some sc =>
        rcases except_bind_ok h with ⟨u1, h1, h⟩
        rcases except_bind_ok h with ⟨u2, h2, h⟩
        rcases except_bind_ok h with ⟨u3, h3, h⟩
        injection h with h
        exact h.symm
      | none =>
        injection h with h
        exact h.symm
    · rw [if_neg hr] at h
      rcases except_bind_ok h with ⟨u1, h1, h⟩
      rcases except_bind_ok h with ⟨u2, h2, h⟩
      rcases except_bind_ok h with ⟨u3, h3, h⟩
      injection h with h
      exact h.symm

theorem createDirection_e_cellB (r c : Nat) (a : BlockAttrs) :
    createDirection (cellB r a c) Direction.e = cellB r a (c + 1) := by
  simp only [createDirection, cellB, dirStep, BlockData.mk.injEq]
  refine ⟨by omega, by omega, trivial⟩

theorem createDirection_n_cellB (r c : Nat) (a : BlockAttrs) :
    createDirection (cellB r a c) Direction.n = cellB (r + 1) a c := by
  simp only [createDirection, cellB, dirStep, BlockData.mk.injEq]
  refine ⟨by omega, by omega, trivial⟩

theorem pyNth_mkRow_zero (rp C : Nat) (a : BlockAttrs) (hC : 0 < C) :
    pyNth (mkRow rp C a) 0 = .ok (cellB rp a 0) := by
  unfold pyNth mkRow
  simp [List.getElem?_map, List.getElem?_range, hC]

theorem buildRowAux_east (cfg : Config) (cw cs : Option ChunkData)
    (cols r : Nat) (prevRow : List BlockData) (a : BlockAttrs) :
    ∀ (fuel c : Nat) (rest res : List BlockData), 1 ≤ c →
      buildRowAux cfg cw cs cols r prevRow fuel c
        (cellB r a (c - 1) :: rest) = .ok res →
      res = ((List.range' c fuel).map (cellB r a)).reverse ++
        (cellB r a (c - 1) :: rest) := by
  intro fuel
  induction fuel with
  | zero =>
    intro c rest res hc h
    injection h with h
    rw [← h]
    simp
  | succ n ih =>
    intro c rest res hc h
    rcases except_bind_ok h with ⟨b, hb, h2⟩
    obtain ⟨p, rest', heq, hbe⟩ := buildCell_cpos (by omega) hb
    injection heq with hp hrest
    have hb2 : b = cellB r a c := by
      rw [hbe, ← hp, createDirection_e_cellB]
      congr 1
      omega
    subst hb2
    subst hrest
    have h3 := ih (c + 1) (cellB r a (c - 1) :: rest) res (by omega) h2
    rw [h3, List.range'_succ]
    simp [List.append_assoc]

theorem buildRowAux_tail (cfg : Config) (cw cs : Option ChunkData)
    (k r : Nat) (prevRow : List BlockData) (a : BlockAttrs)
    (res : List BlockData)
    (h2 : buildRowAux cfg cw cs (k + 1) r prevRow k 1 [cellB r a 0] =
      .ok res) :
    res = (mkRow r (k + 1) a).reverse := by
  have h3 := buildRowAux_east cfg cw cs (k + 1) r prevRow a k 1 [] res
    (by omega) h2
  rw [h3, mkRow, List.range_eq_range', List.range'_succ]
  simp

theorem buildRow_pos (cfg : Config) (cw cs : Option ChunkData)
    (cols r : Nat) (a : BlockAttrs) (hr : r ≠ 0)
    (prevRow : List BlockData) (hprev : prevRow = mkRow (r - 1) cols a)
    (res : List BlockData)
    (h : buildRowAux cfg cw cs cols r prevRow cols 0 [] = .ok res) :
    res = (mkRow r cols a).reverse := by
  cases cols with
  | zero =>
    injection h with h
    rw [← h]
    rfl
  | succ k =>
    rcases except_bind_ok h with ⟨b, hb, h2⟩
    obtain ⟨p, hp, hbe⟩ := buildCell_c0_rpos hr hb
    rw [hprev, pyNth_mkRow_zero (r - 1) (k + 1) a (by omega)] at hp
    injection hp with hp
    have hb2 : b = cellB r a 0 := by
      rw [hbe, ← hp, createDirection_n_cellB]
      congr 1
      omega
    subst hb2
    exact buildRowAux_tail cfg cw cs k r prevRow a res h2

theorem buildRow_zero (cfg : Config) (cw cs : Option ChunkData)
    (cols : Nat) (prevRow : List BlockData) (res : List BlockData)
    (h : buildRowAux cfg cw cs cols 0 prevRow cols 0 [] = .ok res) :
    ∃ a, res = (mkRow 0 cols a).reverse := by
  cases cols with
  | zero =>
    injection h with h
    exact ⟨default, by rw [← h]; rfl⟩
  | succ k =>
    rcases except_bind_ok h with ⟨b, hb, h2⟩
    obtain ⟨hx, hy⟩ := buildCell_c0_r0 hb
    have hb2 : b = cellB 0 b.attrs 0 := by
      cases b with
      | mk bx by2 battrs =>
        simp only [cellB]
        simp only at hx hy
        rw [hx, hy]
        rfl
    rw [hb2] at h2
    exact ⟨b.attrs, buildRowAux_tail cfg cw cs k 0 prevRow b.attrs res h2⟩

theorem buildGridAux_char (cfg : Config) (cw cs : Option ChunkData)
    (cols : Nat) (a : BlockAttrs) :
    ∀ (fuel r : Nat) (gridRev res : List (List BlockData)), 1 ≤ r →
      gridRev = ((List.range r).map (fun i => mkRow i cols a)).reverse →
      buildGridAux cfg cw cs cols fuel r gridRev = .ok res →
      res = ((List.range (r + fuel)).map (fun i => mkRow i cols a)).reverse := by
  intro fuel
  induction fuel with
  | zero =>
    intro r gridRev res hr hg h
    injection h with h
    rw [← h, hg, Nat.add_zero]
  | succ n ih =>
    intro r gridRev res hr hg h
    rcases except_bind_ok h with ⟨rowRev, hrow, h2⟩
    have hhead : gridRev.headD [] = mkRow (r - 1) cols a := by
      cases r with
      | zero => omega
      | succ m =>
        rw [hg, List.range_succ]
        simp
    have hrowchar := buildRow_pos cfg cw cs cols r a (by omega)
      (gridRev.headD []) hhead rowRev hrow
    have hg2 : rowRev.reverse :: gridRev =
        ((List.range (r + 1)).map (fun i => mkRow i cols a)).reverse := by
      rw [hrowchar, List.reverse_reverse, hg, List.range_succ]
      simp
    have h3 := ih (r + 1) (rowRev.reverse :: gridRev) res (by omega) hg2 h2
    have he : (r + 1) + n = r + (n + 1) := by omega
    rw [h3, he]

theorem buildGridM_char {cfg : Config} {cw cs : Option ChunkData}
    {g : List (List BlockData)} (h : buildGridM cfg cw cs = .ok g) :
    ∃ a, g = mkGrid (nRows cfg) (nCols cfg) a := by
  unfold buildGridM at h
  obtain ⟨gr, hgr, hmap⟩ : ∃ gr,
      buildGridAux cfg cw cs (nCols cfg) (nRows cfg) 0 [] = .ok gr ∧
      gr.reverse = g := by
    cases hx : buildGridAux cfg cw cs (nCols cfg) (nRows cfg) 0 [] with
    | error e => rw [hx] at h; simp [Except.map] at h
    | ok gr =>
      rw [hx] at h
      exact ⟨gr, rfl, by simpa [Except.map] using h⟩
  cases hR : nRows cfg with
  | zero =>
    rw [hR] at hgr
    injection hgr with hgr
    exact ⟨default, by rw [← hmap, ← hgr]; rfl⟩
  | succ m =>
    rw [hR] at hgr
    rcases except_bind_ok hgr with ⟨rowRev, hrow, h2⟩
    obtain ⟨a, hrowchar⟩ := buildRow_zero cfg cw cs (nCols cfg) _ rowRev hrow
    have hg1 : rowRev.reverse :: ([] : List (List BlockData)) =
        ((List.range 1).map (fun i => mkRow i (nCols cfg) a)).reverse := by
      rw [hrowchar, List.reverse_reverse]
      rfl
    have h3 := buildGridAux_char cfg cw cs (nCols cfg) a m 1 _ gr
      (by omega) hg1 h2
    refine ⟨a, ?_⟩
    rw [← hmap, h3, List.reverse_reverse, mkGrid, Nat.add_comm 1 m]

theorem length_mkRow (r C : Nat) (a : BlockAttrs) : (mkRow r C a).length = C := by
  simp [mkRow]

theorem flatten_mkGrid_sorted (R C : Nat) (a : BlockAttrs) :
    List.Pairwise (fun p q => blockKeyLe p q = true) (mkGrid R C a).flatten := by
  rw [List.pairwise_flatten]
  constructor
  · intro l hl
    obtain ⟨r, -, rfl⟩ := List.mem_map.mp hl
    rw [mkRow, List.pairwise_map]
    refine (List.pairwise_lt_range C).imp ?_
    intro c1 c2 hlt
    simp [blockKeyLe, cellB]
    omega
  · rw [mkGrid, List.pairwise_map]
    refine (List.pairwise_lt_range R).imp ?_
    intro r1 r2 hlt x hx y hy
    obtain ⟨c1, -, rfl⟩ := List.mem_map.mp hx
    obtain ⟨c2, -, rfl⟩ := List.mem_map.mp hy
    simp [blockKeyLe, cellB]
    omega

theorem mergeSort_flatten_mkGrid (R C : Nat) (a : BlockAttrs) :
    (mkGrid R C a).flatten.mergeSort blockKeyLe = (mkGrid R C a).flatten :=
  List.mergeSort_of_sorted (flatten_mkGrid_sorted R C a)

theorem length_flatten_mkGrid (R C : Nat) (a : BlockAttrs) :
    (mkGrid R C a).flatten.length = R * C := by
  induction R with
  | zero => simp [mkGrid]
  | succ m ih =>
    have ih2 : ((List.range m).map (fun r => mkRow r C a)).flatten.length
        = m * C := ih
    rw [mkGrid, List.range_succ, List.map_append, List.flatten_append,
        List.length_append, ih2]
    simp [length_mkRow, Nat.succ_mul]

theorem chunkRows_flatten (C : Nat) :
    ∀ (g : List (List BlockData)) (n : Nat), g.length = n →
      (∀ row ∈ g, row.length = C) → chunkRows C n g.flatten = g := by
  intro g
  induction g with
  | nil =>
    intro n hn _
    rw [← hn]
    rfl
  | cons row rest ih =>
    intro n hn hlen
    rw [← hn]
    show chunkRows C (rest.length + 1) (row :: rest).flatten = row :: rest
    rw [List.flatten_cons]
    have hrow : row.length = C := hlen row (by simp)
    unfold chunkRows
    congr 1
    · rw [List.take_left' hrow]
    · rw [List.drop_left' hrow,
        ih rest.length rfl (fun r hr => hlen r (by simp [hr]))]

theorem chunkRows_mkGrid (R C : Nat) (a : BlockAttrs) :
    chunkRows C R (mkGrid R C a).flatten = mkGrid R C a := by
  have hR : (mkGrid R C a).length = R := by simp [mkGrid]
  refine chunkRows_flatten C (mkGrid R C a) R hR ?_
  intro row hr
  obtain ⟨r, -, rfl⟩ := List.mem_map.mp hr
  exact length_mkRow r C a

theorem mkName_ne_empty (x y : Int) : ¬(mkName x y = "") := by
  intro h
  have hlen : (mkName x y).length = 0 := by rw [h]; rfl
  rw [mkName, String.length_append, String.length_append,
      String.length_append, String.length_append] at hlen
  have h6 : ("Chunk(" : String).length = 6 := rfl
  have h2 : (", " : String).length = 2 := rfl
  have h1 : (")" : String).length = 1 := rfl
  rw [h6, h2, h1] at hlen
  omega

theorem hydrateChunk_mkGrid {cfg : Config} (i : Nat) (rec : ChunkRec)
    (a : BlockAttrs)
    (hb : rec.blocks = (mkGrid (nRows cfg) (nCols cfg) a).flatten) :
    hydrateChunk cfg i rec =
      .ok ⟨rec.x, rec.y, nameOrDefault (some rec.name) rec.x rec.y,
           mkGrid (nRows cfg) (nCols cfg) a, rec.blocks, some i⟩ := by
  simp only [hydrateChunk, loadBlocksData]
  rw [hb, mergeSort_flatten_mkGrid,
      if_pos (length_flatten_mkGrid (nRows cfg) (nCols cfg) a),
      chunkRows_mkGrid]
  rfl

theorem dbQueryIdx_append_none {x y : Int} (rec : ChunkRec) :
    ∀ (db : DB) (i : Nat), dbQueryIdx db x y i = none →
      dbQueryIdx (db ++ [rec]) x y i =
        if rec.x = x ∧ rec.y = y then some (i + db.length, rec) else none := by
  intro db
  induction db with
  | nil =>
    intro i _
    simp [dbQueryIdx]
  | cons r rest ih =>
    intro i h
    rw [List.cons_append]
    unfold dbQueryIdx at h ⊢
    by_cases hc : r.x = x ∧ r.y = y
    · rw [if_pos hc] at h
      exact absurd h (by simp)
    · rw [if_neg hc] at h ⊢
      rw [ih (i + 1) h, List.length_cons]
      have he : i + 1 + rest.length = i + (rest.length + 1) := by omega
      rw [he]

theorem set_append_length {α : Type} (l : List α) (a b : α) :
    (l ++ [a]).set l.length b = l ++ [b] := by
  induction l with
  | nil => rfl
  | cons x t ih =>
    rw [List.cons_append, List.length_cons, List.cons_append]
    rw [List.set_cons_succ]
    rw [ih]

theorem buildBlocksM_ok {cfg : Config} {x y : Int} {db : DB}
    {c : ChunkData} {db' : DB}
    (h : buildBlocksM cfg x y db = .ok (c, db')) :
    ∃ cw cs g,
      loadNoCreate cfg (x - 1) y db = .ok cw ∧
      loadNoCreate cfg x (y - 1) db = .ok cs ∧
      buildGridM cfg cw cs = .ok g ∧
      c = ⟨x, y, mkName x y, g, g.flatten, some db.length⟩ ∧
      db' = db ++ [⟨x, y, mkName x y, []⟩] := by
  unfold buildBlocksM at h
  rcases except_bind_ok h with ⟨cw, h1, h⟩
  rcases except_bind_ok h with ⟨cs, h2, h⟩
  rcases except_bind_ok h with ⟨g, h3, h⟩
  simp only [saveChunk, chunkInit, nameOrDefault] at h
  injection h with h
  exact ⟨cw, cs, g, h1, h2, h3,
    (congrArg Prod.fst h).symm, (congrArg Prod.snd h).symm⟩

theorem loadChunk_eq_hit {cfg : Config} {x y : Int} {create : Bool}
    {db : DB} {i : Nat} {rec : ChunkRec}
    (h0 : dbQueryIdx db x y 0 = some (i, rec)) :
    loadChunk cfg x y create db =
      (hydrateChunk cfg i rec).map (fun c => some (c, db)) := by
  unfold loadChunk
  rw [h0]

theorem loadChunk_eq_miss {cfg : Config} {x y : Int} {db : DB}
    (h0 : dbQueryIdx db x y 0 = none) :
    loadChunk cfg x y true db =
      (buildBlocksM cfg x y db) >>= (fun p =>
        match p with
        | (c1, db1) =>
          match saveChunk c1 db1 with
          | (c2, db2) => Except.ok (some (c2, db2))) := by
  unfold loadChunk
  rw [h0]
  rfl

theorem loadChunk_hit {cfg : Config} {x y : Int} {db : DB} {c : ChunkData}
    {db' : DB} {i : Nat} {rec : ChunkRec}
    (h0 : dbQueryIdx db x y 0 = some (i, rec))
    (h : loadChunk cfg x y true db = .ok (some (c, db'))) :
    hydrateChunk cfg i rec = .ok c ∧ db' = db := by
  rw [loadChunk_eq_hit h0] at h
  cases hh : hydrateChunk cfg i rec with
  | error e =>
    rw [hh] at h
    simp [Except.map] at h
  | ok cc =>
    rw [hh] at h
    simp only [Except.map] at h
    injection h with h
    injection h with h
    injection h with hcc hdb
    exact ⟨by rw [hcc], hdb.symm⟩

theorem loadChunk_miss_create {cfg : Config} {x y : Int} {db : DB}
    {c : ChunkData} {db' : DB}
    (h0 : dbQueryIdx db x y 0 = none)
    (h : loadChunk cfg x y true db = .ok (some (c, db'))) :
    ∃ a,
      c = ⟨x, y, mkName x y, mkGrid (nRows cfg) (nCols cfg) a,
           (mkGrid (nRows cfg) (nCols cfg) a).flatten, some db.length⟩ ∧
      db' = db ++ [⟨x, y, mkName x y,
           (mkGrid (nRows cfg) (nCols cfg) a).flatten⟩] := by
  rw [loadChunk_eq_miss h0] at h
  rcases except_bind_ok h with ⟨p, hb, h⟩
  obtain ⟨cb, db1⟩ := p
  obtain ⟨cw, cs, g, -, -, h3, hcb, hdb1⟩ := buildBlocksM_ok hb
  obtain ⟨a, hg⟩ := buildGridM_char h3
  subst hcb
  subst hdb1
  subst hg
  simp only [saveChunk, set_append_length] at h
  injection h with h
  injection h with h
  injection h with hc hdb
  exact ⟨a, hc.symm, hdb.symm⟩

/-- Claim C1: resolving a chunk with create=true is idempotent.  For any
coordinate and any starting database, if `Chunk.load(x, y, create=True)`
returns a chunk and a second identical call (on the resulting database)
returns another, the two chunks agree on coordinate, name and the full block
grid — positions, sizes, colors and collidable flags (`grid` holds the
complete per-block data).  On a hit both calls hydrate the same record; on a
miss the first call persists the generated grid, whose blocks sit at
positions `(c, r)`, so the reload's sort-by-(y,x)-and-reshape reproduces the
grid exactly. -/
theorem chunk_load_create_idempotent (cfg : Config) (x y : Int) (db : DB)
    (c₁ : ChunkData) (db₁ : DB) (c₂ : ChunkData) (db₂ : DB)
    (h₁ : loadChunk cfg x y true db = .ok (some (c₁, db₁)))
    (h₂ : loadChunk cfg x y true db₁ = .ok (some (c₂, db₂))) :
    c₁.x = c₂.x ∧ c₁.y = c₂.y ∧ c₁.name = c₂.name ∧ c₁.grid = c₂.grid := by
  cases hq : dbQueryIdx db x y 0 with
  | some pr =>
    obtain ⟨i, rec⟩ := pr
    obtain ⟨hh₁, hdb⟩ := loadChunk_hit hq h₁
    subst hdb
    obtain ⟨hh₂, -⟩ := loadChunk_hit hq h₂
    rw [hh₁] at hh₂
    injection hh₂ with hh₂
    rw [hh₂]
    exact ⟨rfl, rfl, rfl, rfl⟩
  | none =>
    obtain ⟨a, hc₁, hdb₁⟩ := loadChunk_miss_create hq h₁
    have hq₂ : dbQueryIdx db₁ x y 0 =
        some (db.length, ⟨x, y, mkName x y,
          (mkGrid (nRows cfg) (nCols cfg) a).flatten⟩) := by
      rw [hdb₁, dbQueryIdx_append_none _ db 0 hq, if_pos ⟨rfl, rfl⟩,
          Nat.zero_add]
    obtain ⟨hh₂, -⟩ := loadChunk_hit hq₂ h₂
    rw [hydrateChunk_mkGrid db.length _ a rfl] at hh₂
    injection hh₂ with hh₂
    have hname : nameOrDefault (some (mkName x y)) x y = mkName x y := by
      simp [nameOrDefault]
    rw [hc₁, ← hh₂]
    exact ⟨rfl, rfl, hname.symm, rfl⟩

/-- Witness for C1: two successive resolving calls for `(0, 0)` on an empty
database under `cfg4` both return the chunk `chunk4`; its coordinate, name
and grid agree across the calls. -/
theorem chunk_load_create_idempotent_witness :
    chunk4.x = chunk4.x ∧ chunk4.y = chunk4.y ∧
    chunk4.name = chunk4.name ∧ chunk4.grid = chunk4.grid :=
  chunk_load_create_idempotent cfg4 0 0 [] chunk4 db4 chunk4 db4 rfl
    (by
      rw [loadChunk_eq_hit
        (show dbQueryIdx db4 0 0 0 =
          some (0, ⟨0, 0, "Chunk(0, 0)", blocks4⟩) from rfl)]
      rw [@hydrateChunk_mkGrid cfg4 0 ⟨0, 0, "Chunk(0, 0)", blocks4⟩ attrsD rfl]
      rfl)

/-- Claim C4 (amended): during generation of a new chunk, the west neighbor
`(x-1, y)` and the south neighbor `(x, y-1)` are resolved through
`Chunk.load` with the default create=False, so a missing neighbor is *not*
created as part of the top-level resolve: after a create=true resolution of
`(x, y)`, previously absent west and south neighbor records are still
absent (only already-persisted neighbors are loaded and stitched). -/
theorem build_neighbors_resolved_without_create (cfg : Config) (x y : Int)
    (db : DB) (c : ChunkData) (db' : DB)
    (hW : dbQuery db (x - 1) y = none) (hS : dbQuery db x (y - 1) = none)
    (h : loadChunk cfg x y true db = .ok (some (c, db'))) :
    dbQuery db' (x - 1) y = none ∧ dbQuery db' x (y - 1) = none := by
  have hW0 : dbQueryIdx db (x - 1) y 0 = none := by
    cases hx : dbQueryIdx db (x - 1) y 0 with
    | none => rfl
    | some p => rw [dbQuery, hx] at hW; simp at hW
  have hS0 : dbQueryIdx db x (y - 1) 0 = none := by
    cases hx : dbQueryIdx db x (y - 1) 0 with
    | none => rfl
    | some p => rw [dbQuery, hx] at hS; simp at hS
  cases hq : dbQueryIdx db x y 0 with
  | some pr =>
    obtain ⟨i, rec⟩ := pr
    obtain ⟨-, hdb⟩ := loadChunk_hit hq h
    subst hdb
    exact ⟨hW, hS⟩
  | none =>
    obtain ⟨a, -, hdb'⟩ := loadChunk_miss_create hq h
    subst hdb'
    constructor
    · rw [dbQuery, dbQueryIdx_append_none _ db 0 hW0,
        if_neg (by rintro ⟨h1, -⟩; simp at h1; omega)]
      rfl
    · rw [dbQuery, dbQueryIdx_append_none _ db 0 hS0,
        if_neg (by rintro ⟨-, h2⟩; simp at h2; omega)]
      rfl

/-- Witness for C4 (amended): generating `(0, 0)` on an empty database
leaves the west neighbor `(-1, 0)` and the south neighbor `(0, -1)`
unpersisted. -/
theorem build_neighbors_resolved_without_create_witness :
    dbQuery db4 (-1) 0 = none ∧ dbQuery db4 0 (-1) = none :=
  build_neighbors_resolved_without_create cfg4 0 0 [] chunk4 db4
    rfl rfl rfl

/-- Claim C6 (amended): when `build_blocks` completes, the chunk's flat
block list equals the grid flattened in row-major order, and the chunk row
has been saved — but with an *empty* block list, because `self.save()` runs
before `self.blocks` is assigned; the grid's blocks are persisted only by
the caller `Chunk.load`'s subsequent save. -/
theorem build_blocks_flat_list_and_presave (cfg : Config) (x y : Int)
    (db : DB) (c : ChunkData) (db' : DB)
    (h : buildBlocksM cfg x y db = .ok (c, db')) :
    c.blocks = c.grid.flatten ∧ db' = db ++ [⟨x, y, c.name, []⟩] := by
  obtain ⟨cw, cs, g, -, -, -, hc, hdb⟩ := buildBlocksM_ok h
  subst hc
  exact ⟨rfl, hdb⟩

/-- Witness for C6 (amended): building at `(0, 0)` on an empty database
under `cfg4` leaves the flat list equal to the flattened grid while the
saved row holds no blocks. -/
theorem build_blocks_flat_list_and_presave_witness :
    chunk4.blocks = chunk4.grid.flatten ∧
    [⟨0, 0, "Chunk(0, 0)", []⟩] = ([] : DB) ++ [⟨0, 0, chunk4.name, []⟩] :=
  build_blocks_flat_list_and_presave cfg4 0 0 [] chunk4
    [⟨0, 0, "Chunk(0, 0)", []⟩] rfl

/-- Claim C8 (amended): a freshly generated chunk has exactly R×C blocks
where R = window_height // block_height and C = window_width // block_width
(integer division); when the window dimensions are not exact multiples of
the block dimensions no configuration error is raised — the quotients are
silently truncated (see the counterexample theorem). -/
theorem generated_chunk_block_count (cfg : Config) (x y : Int) (db : DB)
    (c : ChunkData) (db' : DB)
    (h : buildBlocksM cfg x y db = .ok (c, db')) :
    c.blocks.length = (cfg.window_height / cfg.block_height) *
      (cfg.window_width / cfg.block_width) := by
  obtain ⟨cw, cs, g, -, -, h3, hc, -⟩ := buildBlocksM_ok h
  obtain ⟨a, hg⟩ := buildGridM_char h3
  subst hc
  subst hg
  exact length_flatten_mkGrid (nRows cfg) (nCols cfg) a

/-- Witness for C8 (amended): the chunk generated under `cfg4` has
(4//2)·(4//2) = 4 blocks. -/
theorem generated_chunk_block_count_witness :
    chunk4.blocks.length = (cfg4.window_height / cfg4.block_height) *
      (cfg4.window_width / cfg4.block_width) :=
  generated_chunk_block_count cfg4 0 0 [] chunk4
    [⟨0, 0, "Chunk(0, 0)", []⟩] rfl
